import Mathlib

/-!
Verification of the hansard-ai pipeline (src/main.py) against its
specification.  The script is shallowly embedded: pure fragments become
Lean functions, the PDF read and the two LLM calls become explicit
parameters (an `Option` read result and oracle functions), and the three
sequential steps of `main` become one pipeline function returning a trace.
Page numbers are integers as in Python; page-text mappings are association
lists with Python's `dict.get(k, "")` lookup.
-/

/-- Page-text mapping: 1-based page number to that page's raw text,
in insertion order (models the Python dict built by extraction). -/
abbrev PageMap := List (Int × String)

/-- Python `d.get(k, "")` on the page-text dict. -/
def dictGet (m : PageMap) (k : Int) : String :=
  match m.find? (fun p => p.1 == k) with
  | some p => p.2
  | none => ""

/-- Concatenation of a list of strings (Python `+=` accumulation). -/
def concatAll (l : List String) : String :=
  l.foldr (fun a b => a ++ b) ""

/-- Loop body of `extract_text_from_pdf_pages` over the 0-based page
indices: for each index in range that is a real page, append the page
text plus a newline to the accumulated text and record the page under its
1-based number.  Mirrors src/main.py lines 97-102. -/
def extractLoop (pages : List String) : List Nat → String × PageMap
  | [] => ("", [])
  | p :: rest =>
    let r := extractLoop pages rest
    if h : p < pages.length then
      (pages.get ⟨p, h⟩ ++ "\n" ++ r.1, (((p : Int) + 1), pages.get ⟨p, h⟩) :: r.2)
    else r

/-- The 0-based index range Python iterates over: `range(start, end)` with
`start = start_page - 1 if start_page else 0` and
`end = end_page if end_page else num_pages` (falsy test, so a passed 0
behaves like the default).  Mirrors src/main.py lines 94-97. -/
def pageIndices (startPage endPage : Option Nat) (numPages : Nat) : List Nat :=
  let start := match startPage with
    | some s => if s = 0 then 0 else s - 1
    | none => 0
  let stop := match endPage with
    | some e => if e = 0 then numPages else e
    | none => numPages
  List.range' start (stop - start)

/-- Embedding of `extract_text_from_pdf_pages` (src/main.py lines 84-108).
`readResult` is `none` when opening/parsing the file raises (the `except`
branch) and `some pages` with the list of page texts otherwise. -/
def extract_text_from_pdf_pages (readResult : Option (List String))
    (startPage endPage : Option Nat) : Option String × Option PageMap :=
  match readResult with
  | none => (none, none)
  | some pages =>
    let r := extractLoop pages (pageIndices startPage endPage pages.length)
    (some r.1, some r.2)

/-- The 0-based indices of `idxs` that are real pages of the document. -/
def validIndices (pages : List String) (idxs : List Nat) : List Nat :=
  idxs.filter (fun p => p < pages.length)

/-- A ToC entry as parsed from the LLM: title and starting page.
Mirrors the `toc_schema` items of src/main.py. -/
abbrev TocEntry := String × Int

/-- A successfully parsed proceeding, stamped with its sequence id
(src/main.py lines 185-188).  `payload` is the structured object the
LLM returned; the loop only touches the added `sequence_id` field. -/
structure SegResult (α : Type) where
  payload : α
  sequence_id : Nat
deriving DecidableEq

/-- Observable outcome of the segment-processing loop: the accumulated
proceedings, the LLM calls issued (loop index and chunk text), the
empty-chunk warnings and the LLM-failure messages, each in loop order. -/
structure SegOutcome (α : Type) where
  proceedings : List (SegResult α)
  llmCalls : List (Nat × String)
  warnings : List Nat
  failures : List Nat
deriving DecidableEq

/-- Python `not chunk_text.strip()`: true iff every character is
whitespace (in particular for the empty string). -/
def pyBlank (s : String) : Bool :=
  s.toList.all (fun c => c.isWhitespace)

/-- End page of ToC entry `i`: the next entry's start minus one, or
`len(all_page_texts)` for the final entry (src/main.py line 164). -/
def endPageOf (toc : List TocEntry) (numPages : Nat) (i : Nat) : Int :=
  if i + 1 < toc.length then (toc.getD (i + 1) ("", 0)).2 - 1 else (numPages : Int)

/-- Start page of ToC entry `i` (src/main.py line 162). -/
def startPageOf (toc : List TocEntry) (i : Nat) : Int :=
  (toc.getD i ("", 0)).2

/-- Python `range(start_page, end_page + 1)` over integers. -/
def spanPages (startP endP : Int) : List Int :=
  (List.range (endP + 1 - startP).toNat).map (fun (k : Nat) => startP + (k : Int))

/-- Chunk text for a span: concatenation of `all_page_texts.get(p, "")`
over the span's pages (src/main.py lines 169-171). -/
def chunkText (m : PageMap) (startP endP : Int) : String :=
  concatAll ((spanPages startP endP).map (fun p => dictGet m p))

/-- Chunk text the loop builds for the enumerated ToC entry `p`. -/
def chunkOf (toc : List TocEntry) (m : PageMap) (p : Nat × TocEntry) : String :=
  chunkText m p.2.2 (endPageOf toc m.length p.1)

/-- One iteration of the segment loop (src/main.py lines 161-190), with
the later iterations' outcome in `acc`. -/
def segStep (toc : List TocEntry) (m : PageMap) (oracle : Nat → String → Option α)
    (p : Nat × TocEntry) (acc : SegOutcome α) : SegOutcome α :=
  let chunk := chunkOf toc m p
  if pyBlank chunk then
    { acc with warnings := p.1 :: acc.warnings }
  else
    match oracle p.1 chunk with
    | some a =>
      { acc with
        proceedings := ⟨a, p.1 + 1⟩ :: acc.proceedings,
        llmCalls := (p.1, chunk) :: acc.llmCalls }
    | none =>
      { acc with
        llmCalls := (p.1, chunk) :: acc.llmCalls,
        failures := p.1 :: acc.failures }

/-- The whole segment-processing loop over the enumerated ToC list. -/
def processSegments (toc : List TocEntry) (m : PageMap)
    (oracle : Nat → String → Option α) : SegOutcome α :=
  toc.enum.foldr (segStep toc m oracle) ⟨[], [], [], []⟩

/-- The enumerated entry `p` yields a proceeding: its chunk is not blank
and the LLM call returns a result. -/
def segSucceeds (toc : List TocEntry) (m : PageMap)
    (oracle : Nat → String → Option α) (p : Nat × TocEntry) : Bool :=
  !pyBlank (chunkOf toc m p) && (oracle p.1 (chunkOf toc m p)).isSome

/-- The hardcoded document metadata (src/main.py lines 199-203). -/
structure Metadata where
  chamber : String
  date : String
  parliament_session : String
deriving DecidableEq

/-- The constant metadata block written into the output. -/
def final_metadata : Metadata :=
  ⟨"SENATE", "2025-09-04", "FORTY-EIGHTH PARLIAMENT, FIRST SESSION"⟩

/-- The final JSON document (src/main.py lines 205-208). -/
structure FinalJson (α : Type) where
  document_metadata : Metadata
  proceedings : List (SegResult α)
deriving DecidableEq

/-- How a pipeline run ends: one of the three `exit(...)` calls, or the
output file written with the assembled document. -/
inductive RunResult (α : Type) where
  | abortedTocExtract
  | abortedTocParse
  | abortedFullExtract
  | wrote (doc : FinalJson α)
deriving DecidableEq

/-- Observable trace of a run: how it ended, whether the ToC-parsing LLM
call was issued, and the per-segment LLM calls issued. -/
structure RunTrace (α : Type) where
  result : RunResult α
  tocCalled : Bool
  segCalls : List (Nat × String)
deriving DecidableEq

/-- Python falsy test on an optional string: `not x` is true when the
extraction failed (`None`) or returned the empty string. -/
def pyStrFalsy : Option String → Bool
  | none => true
  | some s => s == ""

/-- Python falsy test on an optional list or dict: `not x` is true when
the value is `None` or empty. -/
def pyListFalsy {β : Type} : Option (List β) → Bool
  | none => true
  | some l => l.isEmpty

/-- Embedding of the main script (src/main.py lines 135-213).  The three
`extract_text_from_pdf_pages` calls read the file anew, so each takes its
own read outcome `rr1`/`rr2`/`rr3`; `tocOracle` and `segOracle` stand for
the two schema-constrained LLM calls. -/
def runPipeline (rr1 rr2 rr3 : Option (List String))
    (tocOracle : String → Option (List TocEntry))
    (segOracle : Nat → String → Option α) : RunTrace α :=
  let e1 := extract_text_from_pdf_pages rr1 (some 1) (some 20)
  if pyStrFalsy e1.1 then
    ⟨RunResult.abortedTocExtract, false, []⟩
  else
    let parsedToc := tocOracle (e1.1.getD "")
    if pyListFalsy parsedToc then
      ⟨RunResult.abortedTocParse, true, []⟩
    else
      let toc := parsedToc.getD []
      let e2 := extract_text_from_pdf_pages rr2 none none
      if pyListFalsy e2.2 then
        ⟨RunResult.abortedFullExtract, true, []⟩
      else
        let m := e2.2.getD []
        let out := processSegments toc m segOracle
        let _metadataText := (extract_text_from_pdf_pages rr3 (some 1) (some 1)).1
        ⟨RunResult.wrote ⟨final_metadata, out.proceedings⟩, true, out.llmCalls⟩

theorem concatAll_nil : concatAll [] = "" := rfl

theorem concatAll_cons (a : String) (l : List String) :
    concatAll (a :: l) = a ++ concatAll l := rfl

/-- Closed form of the extraction loop: the text is each valid page's text
followed by a newline, concatenated in order, and the mapping pairs each
valid page's 1-based number with its raw text. -/
theorem extractLoop_eq (pages : List String) (l : List Nat) :
    extractLoop pages l =
      (concatAll ((validIndices pages l).map (fun p => pages.getD p "" ++ "\n")),
       (validIndices pages l).map (fun (p : Nat) => ((p : Int) + 1, pages.getD p ""))) := by
  induction l with
  | nil => rfl
  | cons p rest ih =>
    by_cases h : p < pages.length
    · simp only [extractLoop, dif_pos h, ih, validIndices, List.filter_cons]
      simp [h, List.getD_eq_getElem _ _ h, List.get_eq_getElem]
      rw [concatAll_cons]
    · simp only [extractLoop, dif_neg h, ih, validIndices, List.filter_cons]
      simp [h]

/-- Closed form of the sequence ids produced by folding the loop body over
any enumerated list: one id, the 1-based index, per succeeding entry. -/
theorem foldSeg_ids (toc : List TocEntry) (m : PageMap)
    (oracle : Nat → String → Option α) (l : List (Nat × TocEntry)) :
    ((l.foldr (segStep toc m oracle) ⟨[], [], [], []⟩).proceedings).map
        (fun r => r.sequence_id) =
      (l.filter (segSucceeds toc m oracle)).map (fun p => p.1 + 1) := by
  induction l with
  | nil => rfl
  | cons p rest ih =>
    simp only [List.foldr_cons, List.filter_cons, segStep, segSucceeds]
    by_cases hb : pyBlank (chunkOf toc m p)
    · simp [hb, ih]
    · rw [if_neg hb]
      obtain ho | ⟨a, ho⟩ := Option.eq_none_or_eq_some (oracle p.1 (chunkOf toc m p))
      · simp [ho, ih, hb]
      · simp [ho, ih, hb]

/-- Closed form of the LLM call log: one call, with the chunk text, per
entry whose chunk is not blank. -/
theorem foldSeg_calls (toc : List TocEntry) (m : PageMap)
    (oracle : Nat → String → Option α) (l : List (Nat × TocEntry)) :
    (l.foldr (segStep toc m oracle) ⟨[], [], [], []⟩).llmCalls =
      (l.filter (fun p => !pyBlank (chunkOf toc m p))).map
        (fun p => (p.1, chunkOf toc m p)) := by
  induction l with
  | nil => rfl
  | cons p rest ih =>
    simp only [List.foldr_cons, List.filter_cons, segStep]
    by_cases hb : pyBlank (chunkOf toc m p)
    · simp [hb, ih]
    · rw [if_neg hb]
      cases ho : oracle p.1 (chunkOf toc m p) with
      | some a => simp [ih, hb]
      | none => simp [ih, hb]

/-- Closed form of the warnings: one per entry whose chunk is blank. -/
theorem foldSeg_warnings (toc : List TocEntry) (m : PageMap)
    (oracle : Nat → String → Option α) (l : List (Nat × TocEntry)) :
    (l.foldr (segStep toc m oracle) ⟨[], [], [], []⟩).warnings =
      (l.filter (fun p => pyBlank (chunkOf toc m p))).map (fun p => p.1) := by
  induction l with
  | nil => rfl
  | cons p rest ih =>
    simp only [List.foldr_cons, List.filter_cons, segStep]
    by_cases hb : pyBlank (chunkOf toc m p)
    · simp [hb, ih]
    · rw [if_neg hb]
      cases ho : oracle p.1 (chunkOf toc m p) with
      | some a => simp [ih, hb]
      | none => simp [ih, hb]

/-- Sequence ids of the proceedings list: the 1-based ToC positions of the
entries that succeed. -/
theorem processSegments_ids (toc : List TocEntry) (m : PageMap)
    (oracle : Nat → String → Option α) :
    ((processSegments toc m oracle).proceedings).map (fun r => r.sequence_id) =
      (toc.enum.filter (segSucceeds toc m oracle)).map (fun p => p.1 + 1) :=
  foldSeg_ids toc m oracle toc.enum

/-- LLM call log of the segment loop: one call per non-blank chunk. -/
theorem processSegments_calls (toc : List TocEntry) (m : PageMap)
    (oracle : Nat → String → Option α) :
    (processSegments toc m oracle).llmCalls =
      (toc.enum.filter (fun p => !pyBlank (chunkOf toc m p))).map
        (fun p => (p.1, chunkOf toc m p)) :=
  foldSeg_calls toc m oracle toc.enum

/-- Warning log of the segment loop: one warning per blank chunk. -/
theorem processSegments_warnings (toc : List TocEntry) (m : PageMap)
    (oracle : Nat → String → Option α) :
    (processSegments toc m oracle).warnings =
      (toc.enum.filter (fun p => pyBlank (chunkOf toc m p))).map (fun p => p.1) :=
  foldSeg_warnings toc m oracle toc.enum

/-- The indices of an enumerated list are strictly increasing. -/
theorem enum_pairwise_fst_lt (l : List β) :
    List.Pairwise (fun a b : Nat × β => a.1 < b.1) l.enum := by
  have h0 : List.Pairwise (fun a b : Nat => a < b) (l.enum.map Prod.fst) := by
    rw [List.enum_map_fst]
    exact List.pairwise_lt_range _
  exact (List.pairwise_map).mp h0

/-- An enumerated list has at most one entry per index. -/
theorem enum_index_inj {l : List β} {p q : Nat × β}
    (hp : p ∈ l.enum) (hq : q ∈ l.enum) (h : p.1 = q.1) : p = q := by
  rw [List.mem_enum_iff_getElem?] at hp hq
  rw [h] at hp
  rw [hp] at hq
  exact Prod.ext h (Option.some_injective _ hq)

/-- Entries whose chunk is blank are skipped: a warning is logged, no LLM
call carries their index, and no proceeding carries their sequence id. -/
theorem blank_entry_skipped (toc : List TocEntry) (m : PageMap)
    (oracle : Nat → String → Option α) (p : Nat × TocEntry)
    (hp : p ∈ toc.enum) (hb : pyBlank (chunkOf toc m p) = true) :
    p.1 ∈ (processSegments toc m oracle).warnings ∧
    (∀ c ∈ (processSegments toc m oracle).llmCalls, c.1 ≠ p.1) ∧
    (∀ r ∈ (processSegments toc m oracle).proceedings, r.sequence_id ≠ p.1 + 1) := by
  refine ⟨?_, ?_, ?_⟩
  · rw [processSegments_warnings]
    exact List.mem_map_of_mem _ (List.mem_filter.mpr ⟨hp, hb⟩)
  · intro c hc
    rw [processSegments_calls] at hc
    obtain ⟨q, hq, hcq⟩ := List.mem_map.mp hc
    obtain ⟨hq1, hq2⟩ := List.mem_filter.mp hq
    intro hcontr
    have hqp : q = p := enum_index_inj hq1 hp (by rw [← hcq] at hcontr; exact hcontr)
    rw [hqp, hb] at hq2
    simp at hq2
  · intro r hr
    intro hcontr
    have hmem : r.sequence_id ∈
        ((processSegments toc m oracle).proceedings).map (fun r => r.sequence_id) :=
      List.mem_map_of_mem _ hr
    rw [processSegments_ids] at hmem
    obtain ⟨q, hq, hq2⟩ := List.mem_map.mp hmem
    obtain ⟨hq1, hqs⟩ := List.mem_filter.mp hq
    have hq1p : q.1 = p.1 := by omega
    have hqp : q = p := enum_index_inj hq1 hp hq1p
    rw [hqp] at hqs
    simp [segSucceeds, hb] at hqs

/-- Concatenating strings that are all empty yields the empty string. -/
theorem concatAll_eq_empty {l : List String} (h : ∀ x ∈ l, x = "") :
    concatAll l = "" := by
  induction l with
  | nil => rfl
  | cons a t ih =>
    rw [concatAll_cons, h a (by simp), ih (fun x hx => h x (by simp [hx]))]
    rfl

/-- Pairwise helper: the sequence ids in the proceedings list are strictly
increasing in append order. -/
theorem processSegments_ids_pairwise (toc : List TocEntry) (m : PageMap)
    (oracle : Nat → String → Option α) :
    List.Pairwise (fun a b : Nat => a < b)
      (((processSegments toc m oracle).proceedings).map (fun r => r.sequence_id)) := by
  rw [processSegments_ids]
  have h1 := enum_pairwise_fst_lt toc
  have h2 : List.Pairwise (fun a b : Nat × TocEntry => a.1 < b.1)
      (toc.enum.filter (segSucceeds toc m oracle)) :=
    h1.sublist (List.filter_sublist _)
  exact h2.map _ (fun a b hab => by omega)

/-- Bound helper: every sequence id is the successor of an index of the
ToC list, hence between 1 and the ToC length. -/
theorem processSegments_ids_bounds (toc : List TocEntry) (m : PageMap)
    (oracle : Nat → String → Option α) :
    ∀ x ∈ ((processSegments toc m oracle).proceedings).map (fun r => r.sequence_id),
      1 ≤ x ∧ x ≤ toc.length := by
  intro x hx
  rw [processSegments_ids] at hx
  obtain ⟨q, hq, hq2⟩ := List.mem_map.mp hx
  obtain ⟨hq1, _⟩ := List.mem_filter.mp hq
  rw [List.mem_enum_iff_getElem?] at hq1
  have hlt : q.1 < toc.length := by
    by_contra hge
    rw [List.getElem?_eq_none (by omega)] at hq1
    exact Option.noConfusion hq1
  omega

/-- Length helper: the proceedings list has one entry per succeeding ToC
entry. -/
theorem processSegments_length (toc : List TocEntry) (m : PageMap)
    (oracle : Nat → String → Option α) :
    ((processSegments toc m oracle).proceedings).length =
      (toc.enum.filter (segSucceeds toc m oracle)).length := by
  have h := congrArg List.length (processSegments_ids toc m oracle)
  simpa using h

/-- C7: for every input on which the file cannot be opened or parsed (the
extraction raises), `extract_text_from_pdf_pages` signals failure by
returning with both outputs absent: `none` for the concatenated text and
`none` for the page mapping, leaving the abort decision to the caller. -/
theorem C7_extract_failure_returns_none (startPage endPage : Option Nat) :
    extract_text_from_pdf_pages none startPage endPage = (none, none) := rfl

/-- C8 counterexample: for the one-page document with page text "a" and no
page range, the extraction returns the text "a\n" (each page's text is
followed by a newline) and not the strict newline-separated concatenation
"a" of the in-range page texts, so the claim as stated fails. -/
theorem C8_counterexample_trailing_newline :
    (extract_text_from_pdf_pages (some ["a"]) none none).1 = some "a\n" ∧
    String.intercalate "\n" ["a"] = "a" ∧
    ("a\n" : String) ≠ "a" := by
  refine ⟨?_, ?_, ?_⟩ <;> decide

/-- C8 amended: for every readable document and optional 1-based inclusive
page range, the extraction returns (a) the concatenation of each in-range
page's extracted text in page order, each page's text followed by a
newline (newline-separated with a trailing newline), and (b) a mapping
from each in-range 1-based page number to that page's raw extracted
text. -/
theorem C8_amended_extraction_contract (pages : List String)
    (startPage endPage : Option Nat) :
    extract_text_from_pdf_pages (some pages) startPage endPage =
      (some (concatAll
          ((validIndices pages (pageIndices startPage endPage pages.length)).map
            (fun p => pages.getD p "" ++ "\n"))),
       some ((validIndices pages (pageIndices startPage endPage pages.length)).map
            (fun (p : Nat) => ((p : Int) + 1, pages.getD p "")))) := by
  simp [extract_text_from_pdf_pages, extractLoop_eq]

/-- C1: for every parsed ToC list the segment loop computes the page span
of entry `i` as from this entry's start to the next entry's start minus
one, or to the last page of the document (the size of the full page-text
mapping, which equals the page count) for the final entry; in particular a
3-entry ToC over a 12-page document yields spans [1,4], [5,8], [9,12]. -/
theorem C1_page_spans :
    (∀ (toc : List TocEntry) (numPages i : Nat), i + 1 < toc.length →
        startPageOf toc i = (toc.getD i ("", 0)).2 ∧
        endPageOf toc numPages i = (toc.getD (i + 1) ("", 0)).2 - 1) ∧
    (∀ (toc : List TocEntry) (numPages i : Nat), ¬ i + 1 < toc.length →
        endPageOf toc numPages i = (numPages : Int)) ∧
    (∀ pages : List String,
        ((extract_text_from_pdf_pages (some pages) none none).2.getD []).length =
          pages.length) ∧
    ((startPageOf [("Bills", 1), ("Motions", 5), ("Adjournment", 9)] 0,
      endPageOf [("Bills", 1), ("Motions", 5), ("Adjournment", 9)]
        ((extract_text_from_pdf_pages (some (List.replicate 12 "page"))
            none none).2.getD []).length 0) = (1, 4) ∧
     (startPageOf [("Bills", 1), ("Motions", 5), ("Adjournment", 9)] 1,
      endPageOf [("Bills", 1), ("Motions", 5), ("Adjournment", 9)]
        ((extract_text_from_pdf_pages (some (List.replicate 12 "page"))
            none none).2.getD []).length 1) = (5, 8) ∧
     (startPageOf [("Bills", 1), ("Motions", 5), ("Adjournment", 9)] 2,
      endPageOf [("Bills", 1), ("Motions", 5), ("Adjournment", 9)]
        ((extract_text_from_pdf_pages (some (List.replicate 12 "page"))
            none none).2.getD []).length 2) = (9, 12)) := by
  refine ⟨?_, ?_, ?_, ?_⟩
  · intro toc numPages i h
    exact ⟨rfl, by rw [endPageOf, if_pos h]⟩
  · intro toc numPages i h
    rw [endPageOf, if_neg h]
  · intro pages
    simp only [extract_text_from_pdf_pages, extractLoop_eq, Option.getD_some,
      List.length_map, validIndices, pageIndices, Nat.sub_zero]
    rw [← List.range_eq_range']
    rw [List.filter_eq_self.mpr (fun a ha => by
      simp [List.mem_range.mp ha])]
    exact List.length_range _
  · refine ⟨?_, ?_, ?_⟩ <;> decide

/-- C1 witness: the general span formulas applied to the concrete 3-entry
ToC of the scenario. -/
theorem C1_page_spans_witness :
    endPageOf [("Bills", 1), ("Motions", 5), ("Adjournment", 9)] 12 0 =
      (([("Bills", 1), ("Motions", 5), ("Adjournment", 9)] : List TocEntry).getD
        1 ("", 0)).2 - 1 ∧
    endPageOf [("Bills", 1), ("Motions", 5), ("Adjournment", 9)] 12 2 = (12 : Int) :=
  ⟨(C1_page_spans.1 [("Bills", 1), ("Motions", 5), ("Adjournment", 9)] 12 0
      (by decide)).2,
   C1_page_spans.2.1 [("Bills", 1), ("Motions", 5), ("Adjournment", 9)] 12 2
      (by decide)⟩

/-- C2 counterexample: with a 2-entry ToC over a 2-page document where the
first segment's LLM call fails and the second succeeds, the single
successful segment carries sequence id 2, not the dense numbering 1..1:
dropping a failed segment does produce a gap in the numbering. -/
theorem C2_counterexample_gap_in_numbering :
    ¬ ((processSegments [("A", 1), ("B", 2)] [(1, "x"), (2, "y")]
          (fun i _ => if i = 0 then none else some ())).proceedings.map
            (fun r => r.sequence_id) =
        List.range' 1
          ((processSegments [("A", 1), ("B", 2)] [(1, "x"), (2, "y")]
              (fun i _ => if i = 0 then none else some ())).proceedings.length)) := by
  decide

/-- C2 amended: the sequence ids carried by the segments in the final
proceedings list are the 1-based ToC positions of the segments that were
successfully parsed: strictly increasing, each between 1 and the ToC
length, but not necessarily the dense numbering 1..k, since dropping a
failed or empty segment produces a gap in the numbering as well as in
page coverage. -/
theorem C2_amended_ids_are_toc_positions (α : Type) (toc : List TocEntry)
    (m : PageMap) (oracle : Nat → String → Option α) :
    ((processSegments toc m oracle).proceedings).map (fun r => r.sequence_id) =
      (toc.enum.filter (segSucceeds toc m oracle)).map (fun p => p.1 + 1) ∧
    List.Pairwise (fun a b : Nat => a < b)
      (((processSegments toc m oracle).proceedings).map (fun r => r.sequence_id)) ∧
    ∀ x ∈ ((processSegments toc m oracle).proceedings).map (fun r => r.sequence_id),
      1 ≤ x ∧ x ≤ toc.length :=
  ⟨processSegments_ids toc m oracle, processSegments_ids_pairwise toc m oracle,
   processSegments_ids_bounds toc m oracle⟩

/-- C2 amended witness: the amended statement evaluated on the
counterexample's input, where the succeeding entries are exactly the
second one and the surviving id list is [2]. -/
theorem C2_amended_ids_witness :
    (((processSegments [("A", 1), ("B", 2)] [(1, "x"), (2, "y")]
          (fun i _ => if i = 0 then none else some ())).proceedings).map
        (fun r => r.sequence_id) =
      (([("A", 1), ("B", 2)] : List TocEntry).enum.filter
          (segSucceeds [("A", 1), ("B", 2)] [(1, "x"), (2, "y")]
            (fun i _ => if i = 0 then none else some ()))).map (fun p => p.1 + 1)) ∧
    List.Pairwise (fun a b : Nat => a < b)
      (((processSegments [("A", 1), ("B", 2)] [(1, "x"), (2, "y")]
          (fun i _ => if i = 0 then none else some ())).proceedings).map
        (fun r => r.sequence_id)) :=
  ⟨(C2_amended_ids_are_toc_positions Unit [("A", 1), ("B", 2)] [(1, "x"), (2, "y")]
      (fun i _ => if i = 0 then none else some ())).1,
   (C2_amended_ids_are_toc_positions Unit [("A", 1), ("B", 2)] [(1, "x"), (2, "y")]
      (fun i _ => if i = 0 then none else some ())).2.1⟩

/-- C3: each successfully parsed segment is stamped with a sequence id
equal to its 1-based position in the ToC list (the ids are exactly the
successors of the indices of the succeeding enumerated entries, in order),
so the ids in the final proceedings list are strictly increasing in
append order but need not be contiguous. -/
theorem C3_ids_equal_toc_positions (α : Type) (toc : List TocEntry)
    (m : PageMap) (oracle : Nat → String → Option α) :
    ((processSegments toc m oracle).proceedings).map (fun r => r.sequence_id) =
      (toc.enum.filter (segSucceeds toc m oracle)).map (fun p => p.1 + 1) ∧
    List.Pairwise (fun a b : Nat => a < b)
      (((processSegments toc m oracle).proceedings).map (fun r => r.sequence_id)) :=
  ⟨processSegments_ids toc m oracle, processSegments_ids_pairwise toc m oracle⟩

/-- C4: the final proceedings list is never longer than the parsed ToC
list, and has the same length exactly when every entry's chunk is
non-blank and every per-segment LLM call returns a result. -/
theorem C4_length_le_toc (α : Type) (toc : List TocEntry) (m : PageMap)
    (oracle : Nat → String → Option α) :
    ((processSegments toc m oracle).proceedings).length ≤ toc.length ∧
    (((processSegments toc m oracle).proceedings).length = toc.length ↔
      ∀ p ∈ toc.enum, pyBlank (chunkOf toc m p) = false ∧
        (oracle p.1 (chunkOf toc m p)).isSome = true) := by
  have hlen := processSegments_length toc m oracle
  have henum : toc.enum.length = toc.length := List.enum_length
  constructor
  · rw [hlen]
    calc (toc.enum.filter (segSucceeds toc m oracle)).length
        ≤ toc.enum.length := List.length_filter_le _ _
      _ = toc.length := henum
  · rw [hlen, ← henum]
    constructor
    · intro heq p hp
      have hfe : toc.enum.filter (segSucceeds toc m oracle) = toc.enum :=
        (List.filter_sublist _).eq_of_length heq
      have hps : segSucceeds toc m oracle p = true := by
        have := List.filter_eq_self.mp hfe p hp
        exact this
      rw [segSucceeds, Bool.and_eq_true, Bool.not_eq_true'] at hps
      exact hps
    · intro hall
      rw [List.filter_eq_self.mpr (fun p hp => by
        rw [segSucceeds, Bool.and_eq_true, Bool.not_eq_true']
        exact hall p hp)]

/-- C4 witness: the bound applied to a concrete run in which the single
entry's chunk is blank, so the inequality is strict at length 0 ≤ 1. -/
theorem C4_length_le_toc_witness :
    ((processSegments [("A", 1)] []
        (fun _ _ => (none : Option Unit))).proceedings).length ≤ 1 :=
  (C4_length_le_toc Unit [("A", 1)] [] (fun _ _ => none)).1

/-- Lookup helper: a page number absent from the mapping contributes the
empty string, as `all_page_texts.get(page_num, "")` does. -/
theorem dictGet_not_mem (m : PageMap) (k : Int) (hk : k ∉ m.map Prod.fst) :
    dictGet m k = "" := by
  have hfind : m.find? (fun p => p.1 == k) = none := by
    rw [List.find?_eq_none]
    intro x hx
    simp only [beq_iff_eq]
    intro hxk
    exact hk (hxk ▸ List.mem_map_of_mem Prod.fst hx)
  simp [dictGet, hfind]

/-- C5: every ToC entry whose concatenated page text is empty or
whitespace-only is skipped with a warning, no LLM call is issued for its
index, and no entry with its sequence id reaches the proceedings list. -/
theorem C5_blank_segment_skipped (α : Type) (toc : List TocEntry) (m : PageMap)
    (oracle : Nat → String → Option α) (p : Nat × TocEntry)
    (hp : p ∈ toc.enum) (hb : pyBlank (chunkOf toc m p) = true) :
    p.1 ∈ (processSegments toc m oracle).warnings ∧
    (∀ c ∈ (processSegments toc m oracle).llmCalls, c.1 ≠ p.1) ∧
    (∀ r ∈ (processSegments toc m oracle).proceedings, r.sequence_id ≠ p.1 + 1) :=
  blank_entry_skipped toc m oracle p hp hb

/-- C5 witness: a one-entry ToC over an empty page mapping has a blank
chunk, and index 0 lands in the warning log. -/
theorem C5_blank_segment_skipped_witness :
    0 ∈ (processSegments [("A", 1)] []
        (fun _ _ => (none : Option Unit))).warnings :=
  (C5_blank_segment_skipped Unit [("A", 1)] [] (fun _ _ => none)
      (0, ("A", 1)) (by decide) (by decide)).1

/-- C6: if the ToC-parsing LLM call returns no data (absent or empty
result), the run terminates at the ToC-parse abort with no per-segment
LLM call made and before writing any output: the result is never the
`wrote` outcome. -/
theorem C6_toc_parse_failure_aborts (α : Type) (rr1 rr2 rr3 : Option (List String))
    (tocOracle : String → Option (List TocEntry))
    (segOracle : Nat → String → Option α)
    (h1 : pyStrFalsy (extract_text_from_pdf_pages rr1 (some 1) (some 20)).1 = false)
    (h2 : pyListFalsy (tocOracle
        ((extract_text_from_pdf_pages rr1 (some 1) (some 20)).1.getD "")) = true) :
    runPipeline rr1 rr2 rr3 tocOracle segOracle =
      ⟨RunResult.abortedTocParse, true, []⟩ ∧
    ∀ doc : FinalJson α,
      (runPipeline rr1 rr2 rr3 tocOracle segOracle).result ≠ RunResult.wrote doc := by
  have hmain : runPipeline rr1 rr2 rr3 tocOracle segOracle =
      ⟨RunResult.abortedTocParse, true, []⟩ := by
    simp [runPipeline, h1, h2]
  exact ⟨hmain, fun doc => by rw [hmain]; simp⟩

/-- C6 witness: a run with a readable one-page document whose ToC-parsing
call returns nothing ends at the ToC-parse abort. -/
theorem C6_toc_parse_failure_aborts_witness :
    runPipeline (some ["hello"]) none none (fun _ => none)
        (fun _ _ => (none : Option Unit)) =
      ⟨RunResult.abortedTocParse, true, []⟩ :=
  (C6_toc_parse_failure_aborts Unit (some ["hello"]) none none (fun _ => none)
      (fun _ _ => none) (by decide) (by decide)).1

/-- C9: the guards at the two extraction steps are falsy tests, so an
empty extraction result is treated identically to an extraction error:
the ToC step aborts, before its LLM call, when the front-pages text is
`None` or the empty string, and the full-text step aborts, before any
per-segment LLM call, when the page mapping is `None` or empty. -/
theorem C9_empty_extraction_treated_as_error (α : Type)
    (rr1 rr2 rr3 : Option (List String))
    (tocOracle : String → Option (List TocEntry))
    (segOracle : Nat → String → Option α) :
    (pyStrFalsy (none : Option String) = true ∧ pyStrFalsy (some "") = true ∧
     pyListFalsy (none : Option PageMap) = true ∧
     pyListFalsy (some ([] : PageMap)) = true) ∧
    (pyStrFalsy (extract_text_from_pdf_pages rr1 (some 1) (some 20)).1 = true →
      runPipeline rr1 rr2 rr3 tocOracle segOracle =
        ⟨RunResult.abortedTocExtract, false, []⟩) ∧
    (pyStrFalsy (extract_text_from_pdf_pages rr1 (some 1) (some 20)).1 = false →
      pyListFalsy (tocOracle
        ((extract_text_from_pdf_pages rr1 (some 1) (some 20)).1.getD "")) = false →
      pyListFalsy (extract_text_from_pdf_pages rr2 none none).2 = true →
      runPipeline rr1 rr2 rr3 tocOracle segOracle =
        ⟨RunResult.abortedFullExtract, true, []⟩) := by
  refine ⟨⟨rfl, rfl, rfl, rfl⟩, ?_, ?_⟩
  · intro h1
    simp [runPipeline, h1]
  · intro h1 h2 h3
    simp [runPipeline, h1, h2, h3]

/-- C9 witness: a readable but empty document yields the empty-string ToC
text and aborts the ToC step exactly as a read error would; a run whose
second read yields an empty page mapping aborts the full-text step. -/
theorem C9_empty_extraction_witness :
    runPipeline (some []) none none (fun _ => some [("A", 1)])
        (fun _ _ => (none : Option Unit)) =
      ⟨RunResult.abortedTocExtract, false, []⟩ ∧
    runPipeline (some ["x"]) (some []) none (fun _ => some [("A", 1)])
        (fun _ _ => (none : Option Unit)) =
      ⟨RunResult.abortedFullExtract, true, []⟩ :=
  ⟨(C9_empty_extraction_treated_as_error Unit (some []) none none
        (fun _ => some [("A", 1)]) (fun _ _ => none)).2.1 (by decide),
   (C9_empty_extraction_treated_as_error Unit (some ["x"]) (some []) none
        (fun _ => some [("A", 1)]) (fun _ _ => none)).2.2
      (by decide) (by decide) (by decide)⟩

/-- C10: building a segment's chunk text is total: a page number absent
from the mapping contributes the empty string, an inverted span yields the
empty chunk, a span none of whose pages is in the mapping yields the empty
chunk, and an entry whose chunk comes out empty is skipped with a warning,
no LLM call carrying its index and no proceedings entry carrying its
sequence id — never an error. -/
theorem C10_chunk_building_total :
    (∀ (m : PageMap) (k : Int), k ∉ m.map Prod.fst → dictGet m k = "") ∧
    (∀ (m : PageMap) (s e : Int), e < s → chunkText m s e = "") ∧
    (∀ (m : PageMap) (s e : Int),
        (∀ p : Int, s ≤ p → p ≤ e → p ∉ m.map Prod.fst) → chunkText m s e = "") ∧
    (∀ (α : Type) (toc : List TocEntry) (m : PageMap)
        (oracle : Nat → String → Option α) (p : Nat × TocEntry),
        p ∈ toc.enum → chunkOf toc m p = "" →
        p.1 ∈ (processSegments toc m oracle).warnings ∧
        (∀ c ∈ (processSegments toc m oracle).llmCalls, c.1 ≠ p.1) ∧
        (∀ r ∈ (processSegments toc m oracle).proceedings,
          r.sequence_id ≠ p.1 + 1)) := by
  refine ⟨dictGet_not_mem, ?_, ?_, ?_⟩
  · intro m s e h
    have h0 : (e + 1 - s).toNat = 0 := by omega
    simp [chunkText, spanPages, h0, concatAll_nil]
  · intro m s e habs
    apply concatAll_eq_empty
    intro x hx
    obtain ⟨p, hp, hpx⟩ := List.mem_map.mp hx
    unfold spanPages at hp
    obtain ⟨k, hk, hkp⟩ := List.mem_map.mp hp
    have hkn := List.mem_range.mp hk
    have hsp : s ≤ p := by omega
    have hpe : p ≤ e := by omega
    rw [← hpx]
    exact dictGet_not_mem m p (habs p hsp hpe)
  · intro α toc m oracle p hp hchunk
    have hb : pyBlank (chunkOf toc m p) = true := by
      rw [hchunk]
      rfl
    exact blank_entry_skipped toc m oracle p hp hb

/-- C10 witness: a missing page number and an inverted span both yield the
empty string on concrete inputs. -/
theorem C10_chunk_building_total_witness :
    dictGet [] 5 = "" ∧ chunkText [(1, "x")] 3 2 = "" :=
  ⟨C10_chunk_building_total.1 [] 5 (by decide),
   C10_chunk_building_total.2.1 [(1, "x")] 3 2 (by decide)⟩
